import Mathlib

/-!
Verification of the catalog engine of `01library.py` (class `EbookLibrary`).

The mutable object state (`self.database`, `self.current_list`) is embedded as
an explicit state value.  Python dicts (insertion-ordered, string keys) are
modelled as association lists; filesystem facts consumed by an operation
(existence checks, directory contents, success of the symlink/copy call) are
passed in as explicit parameters; `json.load` results are modelled as an
optional parsed document.  Sizes are scaled with exact rational arithmetic:
division of a binary64 float by 1024 only decrements the exponent, so for
sizes below 2^53 the float computed by the source equals the rational
modelled here, and CPython's one-decimal fixed formatting is correct rounding
with ties to even, modelled by `roundHalfEven`.
-/

namespace EbookLibrary

/-- Lookup in a Python dict modelled as an insertion-ordered association
list: the value at the first (only, keys being unique) matching key. -/
def dictGet? {α : Type} : List (String × α) → String → Option α
  | [], _ => none
  | p :: m, k => if p.1 = k then some p.2 else dictGet? m k

/-- Assignment `d[k] = v` on a Python dict: updating an existing key keeps
its position, a new key is appended at the end. -/
def dictSet {α : Type} : List (String × α) → String → α → List (String × α)
  | [], k, v => [(k, v)]
  | p :: m, k, v => if p.1 = k then (k, v) :: m else p :: dictSet m k v

/-- Deletion `del d[k]` on a Python dict: removes the matching key, keeping
the order of the remaining entries. -/
def dictErase {α : Type} : List (String × α) → String → List (String × α)
  | [], _ => []
  | p :: m, k => if p.1 = k then m else p :: dictErase m k

/-- The keys of a Python dict, in insertion order (`list(d.keys())`). -/
def dictKeys {α : Type} (m : List (String × α)) : List String :=
  m.map Prod.fst

/-- One book record as stored at `database["lists"][list][name]` by
`add_book`: keys `name`, `size`, `location`, `added_date`. -/
structure Entry where
  name : String
  size : String
  location : String
  added_date : String
deriving DecidableEq

/-- Books of one list: dict from link name to its record. -/
abbrev BookMap := List (String × Entry)

/-- The `"lists"` dict: list name to its books. -/
abbrev ListsMap := List (String × BookMap)

/-- A parsed `library.json` document: the `"lists"` dict and the optional
`"current_list"` key (read with `.get("current_list", "default")`). -/
structure Doc where
  lists : ListsMap
  current_list : Option String
deriving DecidableEq

/-- The in-memory state of the `EbookLibrary` object: `self.database` and
`self.current_list`. -/
structure LibState where
  database : Doc
  current_list : String
deriving DecidableEq

/-- What `load_database` finds at `database/library.json`: `none` when the
file is absent, `some none` when present but `json.load` raises, and
`some (some d)` when it parses to document `d`. -/
abbrev DbFile := Option (Option Doc)

/-- The literal `{"lists": {"default": {}}, "current_list": "default"}`
installed on a missing or unparseable database file. -/
def defaultDoc : Doc :=
  { lists := [("default", [])], current_list := some "default" }

/-- The source `load_database`: parsed document if the file exists and
parses, otherwise the default document; then
`self.current_list = self.database.get("current_list", "default")`. -/
def load_database (file : DbFile) : LibState :=
  let database : Doc :=
    match file with
    | some (some d) => d
    | some none => defaultDoc
    | none => defaultDoc
  { database := database, current_list := database.current_list.getD "default" }

/-- The source `save_database`: sets `database["current_list"]` from
`self.current_list`, then dumps `self.database`.  Returns the updated
in-memory state and the document written to disk. -/
def save_database (st : LibState) : LibState × Doc :=
  let db : Doc := { st.database with current_list := some st.current_list }
  ({ st with database := db }, db)

/-- The unit list `["B", "KB", "MB", "GB", "TB"]` of `format_size`. -/
def size_names : List String := ["B", "KB", "MB", "GB", "TB"]

/-- The scaling loop of `format_size`:
`while size_bytes >= 1024 and i < len(size_names) - 1`, with the running
binary64 value `size_bytes / 1024^i` carried as the exact fraction
`(num, den)` (dividing a binary64 float by 1024 only decrements its exponent,
so for sizes below 2^53 the float is exactly this fraction).  The index `i`
grows on every iteration and the guard needs `i < 4`, so four units of fuel
cover every run of the source loop exactly. -/
def scaleLoop : Nat → Nat × Nat → Nat → (Nat × Nat) × Nat
  | 0, q, i => (q, i)
  | fuel + 1, (num, den), i =>
    if 1024 * den ≤ num ∧ i < 4 then scaleLoop fuel (num, den * 1024) (i + 1)
    else ((num, den), i)

/-- Rounding of the exact nonnegative fraction `num / den` to the nearest
integer with ties to even: what CPython fixed-point formatting does to the
(here exact) value when rendering it with one decimal place. -/
def roundHalfEvenNat (num den : Nat) : Nat :=
  let q := num / den
  let r := num % den
  if 2 * r < den then q
  else if den < 2 * r then q + 1
  else if q % 2 = 0 then q else q + 1

/-- The source `format_size`: `"0 B"` for zero, otherwise the value scaled by
the loop and rendered with one decimal place (`f"{size_bytes:.1f}"`, i.e.
correctly rounded, ties to even) followed by the selected unit.  The rendered
digits of `x` with one decimal place are those of `round(10 * x)`. -/
def format_size (size_bytes : Nat) : String :=
  if size_bytes = 0 then "0 B"
  else
    let p := scaleLoop 4 (size_bytes, 1) 0
    let r : Nat := roundHalfEvenNat (10 * p.1.1) p.1.2
    toString (r / 10) ++ "." ++ toString (r % 10) ++ " " ++ (size_names.getD p.2 "TB")

/-- The candidate link name tried at collision step `k` by `add_book`:
the base name `stem + ext` at `k = 0`, and `stem_k.ext`
(`f-string stem underscore counter extension`) for `k ≥ 1`. -/
def linkCand (stem ext : String) : Nat → String
  | 0 => stem ++ ext
  | k + 1 => stem ++ "_" ++ toString (k + 1) ++ ext

/-- The collision loop of `add_book`:
`while symlink_path.exists(): new_name = stem_counter + ext; counter += 1`.
`taken` is the set of names present in the list directory (what
`symlink_path.exists()` consults), `current` the name currently held by
`symlink_path`, `counter` the running suffix.  The fuel bounds the number of
iterations; the caller passes one more than the directory can collide. -/
def collisionLoop (taken : List String) (stem ext : String) :
    Nat → String → Nat → String
  | _counter, current, 0 => current
  | counter, current, fuel + 1 =>
    if current ∈ taken then
      collisionLoop taken stem ext (counter + 1)
        (stem ++ "_" ++ toString counter ++ ext) fuel
    else current

/-- The link-name computation of `add_book` (`createLink` of the spec):
start from the source file's own name and run the collision loop with the
suffix counter starting at 1. -/
def createLink (taken : List String) (stem ext : String) : String :=
  collisionLoop taken stem ext 1 (stem ++ ext) (taken.length + 1)

/-- Loop invariant of `collisionLoop`: entered with `current` being candidate
`j` and `counter = j + 1`, it returns the first free candidate `k ≥ j`
provided the fuel covers the distance. -/
theorem collisionLoop_finds_first_free (taken : List String) (stem ext : String) :
    ∀ fuel j k, j ≤ k → k - j < fuel →
      (∀ i, j ≤ i → i < k → linkCand stem ext i ∈ taken) →
      linkCand stem ext k ∉ taken →
      collisionLoop taken stem ext (j + 1) (linkCand stem ext j) fuel =
        linkCand stem ext k := by
  intro fuel
  induction fuel with
  | zero => intro j k _ h _ _; omega
  | succ fuel ih =>
    intro j k hjk hfuel hbelow hfree
    rcases Nat.eq_or_lt_of_le hjk with rfl | hlt
    · simp [collisionLoop, hfree]
    · have hmem : linkCand stem ext j ∈ taken := hbelow j le_rfl hlt
      have hstep : stem ++ "_" ++ toString (j + 1) ++ ext = linkCand stem ext (j + 1) := rfl
      simp only [collisionLoop, if_pos hmem, hstep]
      exact ih (j + 1) k hlt (by omega) (fun i h1 h2 => hbelow i (by omega) h2) hfree

/-- C1: the collision handling of `add_book` returns the first free name:
if every candidate before step `k` is taken and candidate `k` is free, the
chosen link name is candidate `k` (base name at `k = 0`, `stem_k.ext` for
`k ≥ 1`, suffixes starting at 1 and increasing by 1); in particular a second
file with the same base name gets `name_1.ext` and `name_2.ext` appears only
when both `name.ext` and `name_1.ext` are taken.  The bound
`k ≤ taken.length` records that a directory with `taken.length` entries
cannot hold more than that many colliding candidates. -/
theorem createLink_first_free (taken : List String) (stem ext : String) (k : Nat)
    (hk : k ≤ taken.length)
    (hbelow : ∀ i, i < k → linkCand stem ext i ∈ taken)
    (hfree : linkCand stem ext k ∉ taken) :
    createLink taken stem ext = linkCand stem ext k := by
  have h := collisionLoop_finds_first_free taken stem ext (taken.length + 1) 0 k
    (Nat.zero_le k) (by omega) (fun i _ h2 => hbelow i h2) hfree
  exact h

/-- Witness for C1: concrete runs of `createLink`.  An empty directory keeps
the base name, a directory holding `name.ext` yields `name_1.ext`, and
`name_2.ext` appears exactly when both earlier names are taken. -/
theorem createLink_first_free_witness :
    createLink [] "name" ".ext" = "name.ext" ∧
    createLink ["name.ext"] "name" ".ext" = "name_1.ext" ∧
    createLink ["name.ext", "name_1.ext"] "name" ".ext" = "name_2.ext" := by
  refine ⟨?_, ?_, ?_⟩
  · exact createLink_first_free [] "name" ".ext" 0 (by decide)
      (fun i h => absurd h (by omega)) (by decide)
  · exact createLink_first_free ["name.ext"] "name" ".ext" 1 (by decide)
      (fun i h => by interval_cases i <;> decide) (by decide)
  · exact createLink_first_free ["name.ext", "name_1.ext"] "name" ".ext" 2 (by decide)
      (fun i h => by interval_cases i <;> decide) (by decide)

/-- The target-resolution step of `open_book`: the entry's recorded
`location` (original source path) is preferred when it exists, then the link
path `books_dir/current_list/book_name`, and `none` (the book-not-found
failure) when neither exists.  `fsExists` is the filesystem existence
check. -/
def resolveOpenTarget (fsExists : String → Bool)
    (books_dir list_name book_name : String) (e : Entry) : Option String :=
  let original_path := e.location
  let symlink_path := books_dir ++ "/" ++ list_name ++ "/" ++ book_name
  if fsExists original_path then some original_path
  else if fsExists symlink_path then some symlink_path
  else none

/-- C7: `resolveOpenTarget` returns the original source path when it exists,
else the link path under the list's directory when that exists, else fails —
exactly in that priority order. -/
theorem resolveOpenTarget_priority (fsExists : String → Bool)
    (books_dir list_name book_name : String) (e : Entry) :
    (fsExists e.location = true →
      resolveOpenTarget fsExists books_dir list_name book_name e = some e.location) ∧
    (fsExists e.location = false →
      fsExists (books_dir ++ "/" ++ list_name ++ "/" ++ book_name) = true →
      resolveOpenTarget fsExists books_dir list_name book_name e =
        some (books_dir ++ "/" ++ list_name ++ "/" ++ book_name)) ∧
    (fsExists e.location = false →
      fsExists (books_dir ++ "/" ++ list_name ++ "/" ++ book_name) = false →
      resolveOpenTarget fsExists books_dir list_name book_name e = none) := by
  refine ⟨fun h1 => ?_, fun h1 h2 => ?_, fun h1 h2 => ?_⟩
  · simp [resolveOpenTarget, h1]
  · simp [resolveOpenTarget, h1, h2]
  · simp [resolveOpenTarget, h1, h2]

/-- Witness for C7: the three priority cases at concrete inputs. -/
theorem resolveOpenTarget_priority_witness :
    resolveOpenTarget (fun _ => true) "books" "default" "b.epub"
        ⟨"b.epub", "1.0 KB", "/src/b.epub", "t"⟩ = some "/src/b.epub" ∧
    resolveOpenTarget (fun s => s = "books/default/b.epub") "books" "default" "b.epub"
        ⟨"b.epub", "1.0 KB", "/src/b.epub", "t"⟩ = some "books/default/b.epub" ∧
    resolveOpenTarget (fun _ => false) "books" "default" "b.epub"
        ⟨"b.epub", "1.0 KB", "/src/b.epub", "t"⟩ = none := by
  refine ⟨?_, ?_, ?_⟩
  · exact (resolveOpenTarget_priority (fun _ => true) "books" "default" "b.epub"
      ⟨"b.epub", "1.0 KB", "/src/b.epub", "t"⟩).1 rfl
  · exact (resolveOpenTarget_priority (fun s => s = "books/default/b.epub") "books"
      "default" "b.epub" ⟨"b.epub", "1.0 KB", "/src/b.epub", "t"⟩).2.1 (by decide) (by decide)
  · exact (resolveOpenTarget_priority (fun _ => false) "books" "default" "b.epub"
      ⟨"b.epub", "1.0 KB", "/src/b.epub", "t"⟩).2.2 rfl rfl

/-- Lookup after assignment at the same key finds the assigned value. -/
theorem dictGet?_dictSet_self {α : Type} (m : List (String × α)) (k : String) (v : α) :
    dictGet? (dictSet m k v) k = some v := by
  induction m with
  | nil => simp [dictGet?, dictSet]
  | cons p m ih =>
    by_cases h : p.1 = k <;> simp [dictGet?, dictSet, h, ih]

/-- Lookup distributes to the right part of an append when the left part
does not hold the key. -/
theorem dictGet?_append_right {α : Type} (m l : List (String × α)) (k : String)
    (h : dictGet? m k = none) : dictGet? (m ++ l) k = dictGet? l k := by
  induction m with
  | nil => simp
  | cons p m ih =>
    by_cases hp : p.1 = k
    · simp [dictGet?, hp] at h
    · simp [dictGet?, hp] at h ⊢
      exact ih h

/-- The assigned key is among the keys after assignment. -/
theorem mem_dictKeys_dictSet_self {α : Type} (m : List (String × α)) (k : String) (v : α) :
    k ∈ dictKeys (dictSet m k v) := by
  induction m with
  | nil => simp [dictKeys, dictSet]
  | cons p m ih =>
    by_cases h : p.1 = k <;> simp [dictKeys, dictSet, h]
    · right
      simpa [dictKeys] using ih

/-- Assignment never removes keys. -/
theorem mem_dictKeys_dictSet {α : Type} (m : List (String × α)) (k a : String) (v : α)
    (h : a ∈ dictKeys m) : a ∈ dictKeys (dictSet m k v) := by
  induction m with
  | nil => simp [dictKeys] at h
  | cons p m ih =>
    simp only [dictKeys, List.map_cons, List.mem_cons] at h
    by_cases hp : p.1 = k
    · simp only [dictSet, if_pos hp, dictKeys, List.map_cons, List.mem_cons]
      rcases h with h | h
      · left; rw [h]; exact hp
      · right; exact h
    · simp only [dictSet, if_neg hp, dictKeys, List.map_cons, List.mem_cons]
      rcases h with h | h
      · left; exact h
      · right; exact ih h

/-- Assignment never empties a dict. -/
theorem dictSet_ne_nil {α : Type} (m : List (String × α)) (k : String) (v : α) :
    dictSet m k v ≠ [] := by
  cases m with
  | nil => simp [dictSet]
  | cons p m => by_cases h : p.1 = k <;> simp [dictSet, h]

/-- Deleting one key keeps every other key. -/
theorem mem_dictKeys_dictErase {α : Type} (m : List (String × α)) (k a : String)
    (h : a ∈ dictKeys m) (hne : a ≠ k) : a ∈ dictKeys (dictErase m k) := by
  induction m with
  | nil => simp [dictKeys] at h
  | cons p m ih =>
    simp [dictKeys] at h
    by_cases hp : p.1 = k
    · rcases h with h | h
      · exact absurd (h ▸ hp) hne
      · simpa [dictErase, hp, dictKeys] using h
    · rcases h with h | h
      · simp [dictErase, hp, dictKeys, h]
      · simp only [dictErase, if_neg hp, dictKeys, List.map_cons, List.mem_cons]
        right
        simpa [dictKeys] using ih (by simpa [dictKeys] using h)

/-- A dict with a key is not empty. -/
theorem ne_nil_of_mem_dictKeys {α : Type} (m : List (String × α)) (a : String)
    (h : a ∈ dictKeys m) : m ≠ [] := by
  cases m with
  | nil => simp [dictKeys] at h
  | cons p m => simp

/-- Outcome of `add_book`. -/
inductive AddResult
  | notExists
  | notFile
  | linkError
  | ok (linkName : String)
deriving DecidableEq

/-- The source `add_book` on the current list.  `stem`, `ext`, `location`
and `sizeBytes` describe the input file (`book_path.stem`, `.suffix`,
`str(book_path.absolute())`, `stat().st_size`); `fileExists` and `isFile`
are the two precondition probes; `taken` is the set of names in the list
directory that the collision loop consults; `linkOk` tells whether the
`os.symlink`/`shutil.copy2` call succeeds (its failure raises before any
database mutation); `now` is the timestamp.  Returns the new state, whether
`save_database` ran, and the outcome. -/
def add_book (st : LibState) (stem ext location : String) (sizeBytes : Nat)
    (fileExists isFile : Bool) (taken : List String) (linkOk : Bool)
    (now : String) : LibState × Bool × AddResult :=
  if fileExists = false then (st, false, .notExists)
  else if isFile = false then (st, false, .notFile)
  else
    let book_size := format_size sizeBytes
    let linkName := createLink taken stem ext
    if linkOk = false then (st, false, .linkError)
    else
      let lists0 :=
        if (dictGet? st.database.lists st.current_list).isNone then
          st.database.lists ++ [(st.current_list, [])]
        else st.database.lists
      let books := (dictGet? lists0 st.current_list).getD []
      let entry : Entry := ⟨linkName, book_size, location, now⟩
      let lists1 := dictSet lists0 st.current_list (dictSet books linkName entry)
      let st1 : LibState := { st with database := { st.database with lists := lists1 } }
      ((save_database st1).1, true, .ok linkName)

/-- Outcome of `add_list`. -/
inductive AddListResult
  | emptyName
  | duplicate
  | ok
deriving DecidableEq

/-- The source `add_list` for an already-stripped input `name`: rejects the
empty name and an existing name, otherwise registers the empty list and
saves.  Returns the state and whether `save_database` ran. -/
def add_list (st : LibState) (name : String) : LibState × Bool × AddListResult :=
  if name = "" then (st, false, .emptyName)
  else if name ∈ dictKeys st.database.lists then (st, false, .duplicate)
  else
    let st1 : LibState :=
      { st with database :=
          { st.database with lists := dictSet st.database.lists name [] } }
    ((save_database st1).1, true, .ok)

/-- Outcome of `delete_list`. -/
inductive DelListResult
  | lastList
  | invalidChoice
  | activeProtected
  | ok (name : String)
deriving DecidableEq

/-- The source `delete_list`, driven by the 1-based menu `choice`: rejects
when at most one list exists, on an out-of-range choice, and on the active
list; otherwise removes the directory, deletes the key and saves.  Returns
the state, whether the list directory was removed (`shutil.rmtree`), whether
`save_database` ran, and the outcome. -/
def delete_list (st : LibState) (choice : Nat) :
    LibState × Bool × Bool × DelListResult :=
  let lists := dictKeys st.database.lists
  if lists.length ≤ 1 then (st, false, false, .lastList)
  else if 1 ≤ choice ∧ choice ≤ lists.length then
    let name := lists.getD (choice - 1) ""
    if name = st.current_list then (st, false, false, .activeProtected)
    else
      let st1 : LibState :=
        { st with database :=
            { st.database with lists := dictErase st.database.lists name } }
      ((save_database st1).1, true, true, .ok name)
  else (st, false, false, .invalidChoice)

/-- The source `switch_lists`, driven by the 1-based menu `choice`: a single
list or an out-of-range choice leaves the state unchanged, otherwise the
current list becomes the chosen key and the state is saved. -/
def switch_lists (st : LibState) (choice : Nat) : LibState × Bool :=
  let lists := dictKeys st.database.lists
  if lists.length = 1 then (st, false)
  else if 1 ≤ choice ∧ choice ≤ lists.length then
    let st1 : LibState := { st with current_list := lists.getD (choice - 1) "" }
    ((save_database st1).1, true)
  else (st, false)

/-- The source `delete_book`, driven by the 1-based menu `choice`: an empty
(or absent) current list or an out-of-range choice leaves the state
unchanged, otherwise the chosen key is deleted from the current list's books
and the state is saved. -/
def delete_book (st : LibState) (choice : Nat) : LibState × Bool :=
  let books := (dictGet? st.database.lists st.current_list).getD []
  if books = [] then (st, false)
  else if 1 ≤ choice ∧ choice ≤ books.length then
    let name := (dictKeys books).getD (choice - 1) ""
    let lists1 := dictSet st.database.lists st.current_list (dictErase books name)
    let st1 : LibState :=
      { st with database := { st.database with lists := lists1 } }
    ((save_database st1).1, true)
  else (st, false)

/-- C3: when the symlink/copy call of `add_book` fails, the state is
returned unchanged, no save happens, and the outcome is the link error —
for every state and every input file. -/
theorem add_book_link_failure_no_mutation (st : LibState)
    (stem ext location : String) (sizeBytes : Nat) (taken : List String)
    (now : String) :
    add_book st stem ext location sizeBytes true true taken false now =
      (st, false, .linkError) := by
  simp [add_book]

/-- C6: `delete_list` rejects with no mutation (state unchanged, no
directory removed, no save) when at most one list remains, and likewise when
the chosen list is the active one (possible only with two or more lists,
since with one list the first rejection fires), regardless of how many
entries any list holds. -/
theorem delete_list_rejections (st : LibState) (choice : Nat) :
    ((dictKeys st.database.lists).length ≤ 1 →
      delete_list st choice = (st, false, false, .lastList)) ∧
    (2 ≤ (dictKeys st.database.lists).length → 1 ≤ choice →
      choice ≤ (dictKeys st.database.lists).length →
      (dictKeys st.database.lists).getD (choice - 1) "" = st.current_list →
      delete_list st choice = (st, false, false, .activeProtected)) := by
  constructor
  · intro h
    simp [delete_list, h]
  · intro hlen h1 h2 hname
    have hnot : ¬ (dictKeys st.database.lists).length ≤ 1 := by omega
    have hname2 : (dictKeys st.database.lists)[choice - 1]?.getD "" = st.current_list := by
      simpa [List.getD] using hname
    simp [delete_list, hnot, h1, h2, hname2]

/-- Witness for C6: both rejections at a concrete two-list state (and a
one-list state for the first), with books present in the active list. -/
theorem delete_list_rejections_witness :
    delete_list
        { database := { lists := [("default", [])], current_list := some "default" },
          current_list := "default" } 1 =
      ({ database := { lists := [("default", [])], current_list := some "default" },
          current_list := "default" }, false, false, .lastList) ∧
    delete_list
        { database :=
            { lists := [("default", [("b.epub", ⟨"b.epub", "1.0 KB", "/s/b.epub", "t"⟩)]),
                ("scifi", [])],
              current_list := some "default" },
          current_list := "default" } 1 =
      ({ database :=
            { lists := [("default", [("b.epub", ⟨"b.epub", "1.0 KB", "/s/b.epub", "t"⟩)]),
                ("scifi", [])],
              current_list := some "default" },
          current_list := "default" }, false, false, .activeProtected) := by
  constructor
  · exact (delete_list_rejections
      { database := { lists := [("default", [])], current_list := some "default" },
        current_list := "default" } 1).1 (by decide)
  · exact (delete_list_rejections
      { database :=
          { lists := [("default", [("b.epub", ⟨"b.epub", "1.0 KB", "/s/b.epub", "t"⟩)]),
              ("scifi", [])],
            current_list := some "default" },
        current_list := "default" } 1).2 (by decide) (by decide) (by decide) (by decide)

/-- C10: when the active list is missing from the lists dict, `add_book`
does not fail: it installs an empty dict for the active list, records the
new entry under it, and saves. -/
theorem add_book_repairs_missing_list (st : LibState)
    (stem ext location : String) (sizeBytes : Nat) (taken : List String)
    (now : String)
    (h : dictGet? st.database.lists st.current_list = none) :
    (add_book st stem ext location sizeBytes true true taken true now).2.2 =
        .ok (createLink taken stem ext) ∧
    (add_book st stem ext location sizeBytes true true taken true now).2.1 = true ∧
    dictGet?
        (add_book st stem ext location sizeBytes true true taken true now).1.database.lists
        st.current_list =
      some [(createLink taken stem ext,
        ⟨createLink taken stem ext, format_size sizeBytes, location, now⟩)] := by
  have hbooks : dictGet? (st.database.lists ++ [(st.current_list, [])])
      st.current_list = some [] := by
    rw [dictGet?_append_right _ _ _ h]
    simp [dictGet?]
  refine ⟨?_, ?_, ?_⟩ <;>
    simp [add_book, save_database, h, hbooks, dictGet?_dictSet_self, dictSet]

/-- The structural invariant of the catalog: the lists dict is non-empty and
the current list is one of its keys. -/
def LibInv (st : LibState) : Prop :=
  st.database.lists ≠ [] ∧ st.current_list ∈ dictKeys st.database.lists

instance (st : LibState) : Decidable (LibInv st) :=
  inferInstanceAs (Decidable (_ ∧ _))

/-- A parsed document that itself satisfies the invariant: non-empty lists
dict whose keys include the list that `load_database` will select (the
stored current list, or "default" when that key is absent). -/
def GoodDoc (d : Doc) : Prop :=
  d.lists ≠ [] ∧ d.current_list.getD "default" ∈ dictKeys d.lists

instance (d : Doc) : Decidable (GoodDoc d) :=
  inferInstanceAs (Decidable (_ ∧ _))

/-- Counterexample to C2 as stated: `load_database` accepts an arbitrary
parsed document verbatim, so loading the well-formed document with an empty
lists dict yields a state violating the invariant. -/
theorem load_database_breaks_invariant :
    ¬ LibInv (load_database (some (some { lists := [], current_list := some "default" }))) := by
  decide

/-- C2 (amended): every mutating operation preserves the invariant that the
lists dict is non-empty and the current list is one of its keys, and
`load_database` establishes it for an absent or unparseable file and
preserves it for any parsed document that itself satisfies it (an arbitrary
well-formed document need not). -/
theorem catalog_invariant_preserved :
    (∀ st name, LibInv st → LibInv (add_list st name).1) ∧
    (∀ st choice, LibInv st → LibInv (delete_list st choice).1) ∧
    (∀ st choice, LibInv st → LibInv (switch_lists st choice).1) ∧
    (∀ st stem ext location sizeBytes fileExists isFile taken linkOk now,
      LibInv st →
      LibInv (add_book st stem ext location sizeBytes fileExists isFile taken
        linkOk now).1) ∧
    (∀ st choice, LibInv st → LibInv (delete_book st choice).1) ∧
    LibInv (load_database none) ∧
    LibInv (load_database (some none)) ∧
    (∀ d, GoodDoc d → LibInv (load_database (some (some d)))) := by
  refine ⟨?_, ?_, ?_, ?_, ?_, by decide, by decide, fun d hd => hd⟩
  · intro st name h
    unfold add_list
    split
    · exact h
    · split
      · exact h
      · exact ⟨dictSet_ne_nil _ _ _, mem_dictKeys_dictSet _ _ _ _ h.2⟩
  · intro st choice h
    unfold delete_list
    dsimp only
    split
    · exact h
    · split
      · split
        · exact h
        · rename_i hcond hne
          have hmem : st.current_list ∈
              dictKeys (dictErase st.database.lists
                ((dictKeys st.database.lists).getD (choice - 1) "")) :=
            mem_dictKeys_dictErase _ _ _ h.2 (fun hh => hne hh.symm)
          exact ⟨ne_nil_of_mem_dictKeys _ _ hmem, hmem⟩
      · exact h
  · intro st choice h
    unfold switch_lists
    dsimp only
    split
    · exact h
    · split
      · rename_i hcond
        have hlt : choice - 1 < (dictKeys st.database.lists).length := by omega
        have hmem : (dictKeys st.database.lists).getD (choice - 1) "" ∈
            dictKeys st.database.lists := by
          rw [List.getD_eq_getElem _ _ hlt]
          exact List.getElem_mem hlt
        exact ⟨h.1, hmem⟩
      · exact h
  · intro st stem ext location sizeBytes fileExists isFile taken linkOk now h
    unfold add_book
    split
    · exact h
    · split
      · exact h
      · split
        · exact h
        · exact ⟨dictSet_ne_nil _ _ _, mem_dictKeys_dictSet_self _ _ _⟩
  · intro st choice h
    unfold delete_book
    dsimp only
    split
    · exact h
    · split
      · exact ⟨dictSet_ne_nil _ _ _, mem_dictKeys_dictSet_self _ _ _⟩
      · exact h

/-- Witness for C2 (amended): each clause applied at a concrete state — the
default state for the operations, the default document for the load. -/
theorem catalog_invariant_preserved_witness :
    LibInv ((add_list (load_database none) "scifi").1) ∧
    LibInv ((delete_list (load_database none) 1).1) ∧
    LibInv ((switch_lists (load_database none) 1).1) ∧
    LibInv ((add_book (load_database none) "dune" ".epub" "/tmp/dune.epub" 1536
      true true [] true "t").1) ∧
    LibInv ((delete_book (load_database none) 1).1) ∧
    LibInv (load_database (some (some defaultDoc))) :=
  ⟨catalog_invariant_preserved.1 (load_database none) "scifi" (by decide),
   catalog_invariant_preserved.2.1 (load_database none) 1 (by decide),
   catalog_invariant_preserved.2.2.1 (load_database none) 1 (by decide),
   catalog_invariant_preserved.2.2.2.1 (load_database none) "dune" ".epub"
     "/tmp/dune.epub" 1536 true true [] true "t" (by decide),
   catalog_invariant_preserved.2.2.2.2.1 (load_database none) 1 (by decide),
   catalog_invariant_preserved.2.2.2.2.2.2.2 defaultDoc (by decide)⟩

/-- Witness for C10: a state whose active list "mylist" is absent from the
lists dict; adding a book succeeds, saves, and leaves the repaired list
holding exactly the new entry. -/
theorem add_book_repairs_missing_list_witness :
    (add_book
        { database := { lists := [("other", [])], current_list := some "other" },
          current_list := "mylist" }
        "dune" ".epub" "/tmp/dune.epub" 1536 true true [] true "t").2.2 =
      .ok (createLink [] "dune" ".epub") ∧
    (add_book
        { database := { lists := [("other", [])], current_list := some "other" },
          current_list := "mylist" }
        "dune" ".epub" "/tmp/dune.epub" 1536 true true [] true "t").2.1 = true ∧
    dictGet?
        (add_book
          { database := { lists := [("other", [])], current_list := some "other" },
            current_list := "mylist" }
          "dune" ".epub" "/tmp/dune.epub" 1536 true true [] true "t").1.database.lists
        "mylist" =
      some [(createLink [] "dune" ".epub",
        ⟨createLink [] "dune" ".epub", format_size 1536, "/tmp/dune.epub", "t"⟩)] :=
  add_book_repairs_missing_list
    { database := { lists := [("other", [])], current_list := some "other" },
      current_list := "mylist" }
    "dune" ".epub" "/tmp/dune.epub" 1536 [] "t" (by decide)

/-- C4: an absent (`none`) or unparseable (`some none`) database file makes
`load_database` return, rather than raise, the state whose lists dict holds
exactly one empty list named "default" and whose active list is "default". -/
theorem load_database_defaults :
    load_database none = { database := defaultDoc, current_list := "default" } ∧
    load_database (some none) = { database := defaultDoc, current_list := "default" } ∧
    defaultDoc.lists = [("default", [])] := by
  refine ⟨rfl, rfl, rfl⟩

/-- C5: for every catalog state, saving and re-loading yields a state with
identical lists content and identical active list. -/
theorem save_then_load_roundtrip (st : LibState) :
    (load_database (some (some (save_database st).2))).database.lists =
        st.database.lists ∧
    (load_database (some (some (save_database st).2))).current_list =
        st.current_list := by
  exact ⟨rfl, rfl⟩

/-- Closed form of the scale index chosen by the loop of `format_size`: the
number of 1024-divisions performed, capped at 4 (the TB unit). -/
def specScaleIdx (n : Nat) : Nat :=
  if n < 1024 then 0
  else if n < 1048576 then 1
  else if n < 1073741824 then 2
  else if n < 1099511627776 then 3
  else 4

/-- Modelled from the spec: `format_size` as C9 reads it, the decimal digit
obtained by truncating the scaled value to one decimal place (the digits of
the floor of ten times the scaled value). -/
def format_size_trunc (size_bytes : Nat) : String :=
  if size_bytes = 0 then "0 B"
  else
    let i := specScaleIdx size_bytes
    let t := 10 * size_bytes / 1024 ^ i
    toString (t / 10) ++ "." ++ toString (t % 10) ++ " " ++ (size_names.getD i "TB")

/-- Modelled from the spec, amended: the decimal digit obtained by correctly
rounding the scaled value to one decimal place with ties to even. -/
def format_size_round (size_bytes : Nat) : String :=
  if size_bytes = 0 then "0 B"
  else
    let i := specScaleIdx size_bytes
    let r := roundHalfEvenNat (10 * size_bytes) (1024 ^ i)
    toString (r / 10) ++ "." ++ toString (r % 10) ++ " " ++ (size_names.getD i "TB")

/-- Unfolding equation of one loop iteration. -/
theorem scaleLoop_step (fuel num den i : Nat) :
    scaleLoop (fuel + 1) (num, den) i =
      if 1024 * den ≤ num ∧ i < 4 then scaleLoop fuel (num, den * 1024) (i + 1)
      else ((num, den), i) := rfl

/-- The loop of `format_size` computes the closed-form scale index and
leaves the value `n / 1024^i` as the exact fraction. -/
theorem scaleLoop_closed (n : Nat) :
    scaleLoop 4 (n, 1) 0 = ((n, 1024 ^ specScaleIdx n), specScaleIdx n) := by
  by_cases h0 : n < 1024
  · rw [scaleLoop_step, if_neg (by omega)]
    norm_num [specScaleIdx, h0]
  · by_cases h1 : n < 1048576
    · rw [scaleLoop_step, if_pos (by omega), scaleLoop_step, if_neg (by omega)]
      norm_num [specScaleIdx, h0, h1]
    · by_cases h2 : n < 1073741824
      · rw [scaleLoop_step, if_pos (by omega), scaleLoop_step, if_pos (by omega),
          scaleLoop_step, if_neg (by omega)]
        norm_num [specScaleIdx, h0, h1, h2]
      · by_cases h3 : n < 1099511627776
        · rw [scaleLoop_step, if_pos (by omega), scaleLoop_step, if_pos (by omega),
            scaleLoop_step, if_pos (by omega), scaleLoop_step, if_neg (by omega)]
          norm_num [specScaleIdx, h0, h1, h2, h3]
        · rw [scaleLoop_step, if_pos (by omega), scaleLoop_step, if_pos (by omega),
            scaleLoop_step, if_pos (by omega), scaleLoop_step, if_pos (by omega)]
          norm_num [scaleLoop, specScaleIdx, h0, h1, h2, h3]

/-- Counterexample to C9 as stated: at 2038 bytes the scaled value is
1.990234375, and the source renders it as "2.0 KB" — the digit is rounded
up, not obtained by truncation, which would give "1.9 KB". -/
theorem format_size_rounds_up_at_2038 :
    format_size 2038 = "2.0 KB" ∧ format_size_trunc 2038 = "1.9 KB" ∧
    format_size 2038 ≠ format_size_trunc 2038 := by
  refine ⟨by decide, by decide, by decide⟩

/-- C9 (amended): for every byte count the decimal digit of `format_size` is
obtained by correctly rounding the scaled value to one decimal place with
ties to even (what CPython one-decimal fixed formatting does to the exactly
scaled value), not by truncating it. -/
theorem format_size_digit_by_rounding (n : Nat) :
    format_size n = format_size_round n := by
  by_cases h : n = 0
  · simp [format_size, format_size_round, h]
  · simp only [format_size, format_size_round, if_neg h, scaleLoop_closed]

/-- C8: the four concrete values of `format_size` stated by the spec. -/
theorem format_size_values :
    format_size 0 = "0 B" ∧ format_size 1024 = "1.0 KB" ∧
    format_size 1536 = "1.5 KB" ∧ format_size 1073741824 = "1.0 GB" := by
  refine ⟨rfl, ?_, ?_, ?_⟩ <;> decide

end EbookLibrary
